import Mathlib

/-!
# Verification of the upload/session server (`server.js`) and its client form

Shallow embedding of the repository's code:

* `server.js` — an Express app holding a process-local `users` array and
  exposing `/register`, `/login`, `/profile`, `/update-profile` (auth group)
  and `/upload` (presigned-URL gateway).
* the client form script (`app.js`) — a submit handler that validates
  locally, POSTs `{subjectId, filename, fileContent}` to an upload API and
  tracks an Idle/Uploading/Success/Error display.

Modelling conventions:

* JS strings are `String`; an absent (`undefined`) string-valued field is
  `Option.none`; the JS truthiness test `if (x)` on a string-or-undefined
  value is "present and non-empty".
* The mutable `users` array is threaded explicitly as a `List Account`;
  `Array.prototype.find` is `List.find?` (first match), mutation of the
  found element is `updateFirst` (rewrite the first matching element in
  place, preserving order and length).
* `generateToken` (`Math.random().toString(36).substring(2)`) is a
  non-deterministic source of opaque strings; each operation that calls it
  takes the generated token as an explicit input.  Nothing in the generator
  guarantees freshness or non-emptiness, so theorems that need those state
  them as hypotheses on the supplied tokens.
* `s3.getSignedUrl('putObject', params, cb)` is an oracle
  `sign : SignParams → Except String String` (error message or URL);
  the handler is proved for every oracle.
* HTTP responses are `Resp α`: either `err status message` (the
  `res.status(s).json({error: m})` path) or `ok v` (the 200 `res.json(...)`
  path).
-/

/-- An entry of the server's `users` array: `{username, password, role,
sessionToken}`.  Accounts are only ever created by `/register`, which always
assigns a `sessionToken`, so the field is total. -/
structure Account where
  username : String
  password : String
  role : String
  sessionToken : String
deriving Repr, DecidableEq

/-- An HTTP response: an error status with a JSON `{error}` message, or a
200 with a JSON body of type `α`. -/
inductive Resp (α : Type) where
  | err (status : Nat) (error : String)
  | ok (value : α)
deriving Repr, DecidableEq

/-- Success body of `/register` and `/login`: `{sessionToken, username, role}`. -/
structure AuthResponse where
  sessionToken : String
  username : String
  role : String
deriving Repr, DecidableEq

/-- Success body of `/profile`: `{username, role}`. -/
structure ProfileResponse where
  username : String
  role : String
deriving Repr, DecidableEq

/-- Success body of `/update-profile`: `{success, username, role}`. -/
structure UpdateResponse where
  success : Bool
  username : String
  role : String
deriving Repr, DecidableEq

/-- Rewrite the first element satisfying `p` by `f`, in place.  This is the
effect of mutating the object returned by `users.find(...)` inside the
`users` array. -/
def updateFirst (p : Account → Bool) (f : Account → Account) : List Account → List Account
  | [] => []
  | u :: us => if p u then f u :: us else u :: updateFirst p f us

/-- `POST /register` (`server.js` lines 34–46).  Takes the token produced by
`generateToken` as an explicit input.  Returns the new `users` array and the
response. -/
def register (username password role tok : String) (users : List Account) :
    List Account × Resp AuthResponse :=
  if username == "" || password == "" || role == "" then
    (users, .err 400 "Missing username, password or role")
  else if users.any (fun u => u.username == username) then
    (users, .err 400 "Username already exists")
  else
    (users ++ [⟨username, password, role, tok⟩], .ok ⟨tok, username, role⟩)

/-- `POST /login` (`server.js` lines 24–32).  Takes the token produced by
`generateToken` as an explicit input. -/
def login (username password tok : String) (users : List Account) :
    List Account × Resp AuthResponse :=
  match users.find? (fun u => u.username == username && u.password == password) with
  | none => (users, .err 401 "Invalid Login")
  | some u =>
      (updateFirst (fun v => v.username == username && v.password == password)
        (fun v => { v with sessionToken := tok }) users,
       .ok ⟨tok, u.username, u.role⟩)

/-- The token lookup shared by `/profile` and `/update-profile`:
`users.find(u => u.sessionToken === token)` where `token` is the
`Authorization` header (absent header = `none`, which `===`-equals no
string). -/
def findByToken (authHeader : Option String) (users : List Account) : Option Account :=
  users.find? (fun u => some u.sessionToken == authHeader)

/-- `GET /profile` (`server.js` lines 48–54). -/
def profile (authHeader : Option String) (users : List Account) : Resp ProfileResponse :=
  match findByToken authHeader users with
  | none => .err 401 "You are not logged in"
  | some u => .ok ⟨u.username, u.role⟩

/-- Body of `POST /update-profile`: both fields optional. -/
structure UpdateBody where
  username : Option String
  role : Option String
deriving Repr, DecidableEq

/-- The two `if (field) user.field = field` statements of
`/update-profile`: a field is overwritten only when supplied and truthy
(non-empty). -/
def applyUpdate (b : UpdateBody) (u : Account) : Account :=
  let u1 : Account :=
    match b.username with
    | some s => if s == "" then u else { u with username := s }
    | none => u
  match b.role with
  | some s => if s == "" then u1 else { u1 with role := s }
  | none => u1

/-- `POST /update-profile` (`server.js` lines 56–66).  Returns the new
`users` array and the response (built from the account after mutation). -/
def updateProfile (authHeader : Option String) (b : UpdateBody) (users : List Account) :
    List Account × Resp UpdateResponse :=
  match findByToken authHeader users with
  | none => (users, .err 401 "You are not logged in")
  | some u =>
      (updateFirst (fun v => some v.sessionToken == authHeader) (applyUpdate b) users,
       .ok ⟨true, (applyUpdate b u).username, (applyUpdate b u).role⟩)

/-- One client-visible operation on the auth group.  Register and login
carry the token their `generateToken` call produced. -/
inductive Op where
  | register (username password role tok : String)
  | login (username password tok : String)
  | getProfile (authHeader : Option String)
  | updateProfile (authHeader : Option String) (body : UpdateBody)
deriving Repr, DecidableEq

/-- State transition of one operation (`GET /profile` never writes). -/
def step (users : List Account) : Op → List Account
  | .register u p r t => (register u p r t users).1
  | .login u p t => (login u p t users).1
  | .getProfile _ => users
  | .updateProfile h b => (updateProfile h b users).1

/-- Run a sequence of operations from a given store. -/
def runFrom (users : List Account) (ops : List Op) : List Account :=
  ops.foldl step users

/-- Run a sequence of operations from the empty store (`let users = []`). -/
def run (ops : List Op) : List Account :=
  runFrom [] ops

/-- The spec's uniqueness invariant: no two accounts share a username. -/
def UniqueUsernames (users : List Account) : Prop :=
  (users.map Account.username).Nodup

instance : DecidablePred UniqueUsernames := fun users =>
  inferInstanceAs (Decidable ((users.map Account.username).Nodup))

/-- All stored session tokens are pairwise distinct. -/
def TokensNodup (users : List Account) : Prop :=
  (users.map Account.sessionToken).Nodup

instance : DecidablePred TokensNodup := fun users =>
  inferInstanceAs (Decidable ((users.map Account.sessionToken).Nodup))

/-- Every `register`/`login` token supplied along the trace is non-empty
(the generator's output modelled as a non-empty opaque string). -/
def tokensNonEmpty : List Op → Bool
  | [] => true
  | op :: ops =>
    (match op with
     | .register _ _ _ t => t != ""
     | .login _ _ t => t != ""
     | _ => true) && tokensNonEmpty ops

/-- Every `register`/`login` token supplied along the trace is fresh: it
differs from every session token stored at the moment it is generated. -/
def freshTrace : List Account → List Op → Bool
  | _, [] => true
  | users, op :: ops =>
    (match op with
     | .register _ _ _ t => users.all (fun a => a.sessionToken != t)
     | .login _ _ t => users.all (fun a => a.sessionToken != t)
     | _ => true) && freshTrace (step users op) ops

/-- Index of the first element satisfying `p` (the index
`Array.prototype.find` stops at). -/
def firstIdx (p : Account → Bool) : List Account → Option Nat
  | [] => none
  | u :: us => if p u then some 0 else (firstIdx p us).map (· + 1)

/-- No operation of the trace logs into the account at position `i`: every
`login` resolves (via the first username/password match) to a different
account or to none. -/
def avoidsLogin (i : Nat) : List Account → List Op → Bool
  | _, [] => true
  | users, op :: ops =>
    (match op with
     | .login u p _ =>
         firstIdx (fun a => a.username == u && a.password == p) users != some i
     | _ => true) && avoidsLogin i (step users op) ops

/-- Every `update-profile` of the trace that supplies a truthy username
renames to a username not present in the store at that moment. -/
def renamesFresh : List Account → List Op → Bool
  | _, [] => true
  | users, op :: ops =>
    (match op with
     | .updateProfile _ b =>
         match b.username with
         | some s => s == "" || users.all (fun a => a.username != s)
         | none => true
     | _ => true) && renamesFresh (step users op) ops

/-- Parameters handed to `s3.getSignedUrl('putObject', params, cb)`:
`{Bucket, Key, Expires, ContentType}`. -/
structure SignParams where
  bucket : String
  key : String
  expires : Nat
  contentType : String
deriving Repr, DecidableEq

/-- Success body of `GET /upload`: `{uploadURL}`. -/
structure UploadResponse where
  uploadURL : String
deriving Repr, DecidableEq

/-- `GET /upload` (`server.js` lines 75–90).  `fileName` is the query
parameter (`none` when absent); `sign` is the S3 presigner oracle, returning
either an error message (`err.message`) or the signed URL. -/
def uploadHandler (bucket : String) (fileName : Option String)
    (sign : SignParams → Except String String) : Resp UploadResponse :=
  if (match fileName with | none => true | some s => s == "") then
    .err 400 "you are missing filename"
  else
    match sign ⟨bucket, fileName.getD "", 60, "text/csv"⟩ with
    | .error e => .err 500 e
    | .ok url => .ok ⟨url⟩

/-- Modelled from the spec: the inline-content upload endpoint (§4.2
"Inline-content mode").  The deployed handler behind the client's
`API_URL` is not part of `src/`; only its caller (the client form) is.
Per the spec it "fails with ValidationError if subjectId or filename is
empty or fileContent absent; on success, writes fileContent as an object
under key=filename … and returns {key}.  Fails with StorageError if the
write fails, surfacing the storage provider's status and message."
`write` is the object-storage oracle (key, content ↦ unit or
status/message). -/
structure InlineRequest where
  subjectId : String
  filename : String
  fileContent : String
deriving Repr, DecidableEq

/-- Success body of the inline-mode upload: `{key}`. -/
structure InlineResponse where
  key : String
deriving Repr, DecidableEq

/-- Modelled from the spec: see `InlineRequest`. -/
def uploadInline (r : InlineRequest)
    (write : String → String → Except (Nat × String) Unit) : Resp InlineResponse :=
  if r.subjectId == "" || r.filename == "" || r.fileContent == "" then
    .err 400 "Missing subjectId, filename or fileContent"
  else
    match write r.filename r.fileContent with
    | .error (s, m) => .err s m
    | .ok _ => .ok ⟨r.filename⟩

/-- JS `String.prototype.trim`: strip leading and trailing whitespace. -/
def trimChars (s : String) : String :=
  ⟨((s.data.dropWhile Char.isWhitespace).reverse.dropWhile Char.isWhitespace).reverse⟩

/-- The selected file of the client form: its `name` and the text
`file.text()` resolves to. -/
structure FileData where
  name : String
  text : String
deriving Repr, DecidableEq

/-- Outcome of the client's `fetch` exchange: a thrown network/read error
with its message, or a response with `status`, body text (read in the
error branch) and the parse of `response.json()` — `none` when parsing
fails, otherwise the value of `data.key` (`none` when absent). -/
inductive FetchOutcome where
  | netErr (msg : String)
  | resp (status : Nat) (body : String) (json : Option (Option String))
deriving Repr, DecidableEq

/-- The states of the client form's display. -/
inductive FormState where
  | Idle
  | Uploading
  | Success (msg : String)
  | Error (msg : String)
deriving Repr, DecidableEq

/-- Result of one submit: either no request was issued (local validation
failed; the form shows `msg` and stays Idle), or a request was issued
(the form passed through Uploading) and ended in `final`. -/
inductive SubmitResult where
  | noRequest (msg : String)
  | completed (final : FormState)
deriving Repr, DecidableEq

/-- `true` exactly when the submit ended in the Error state. -/
def SubmitResult.endedInError : SubmitResult → Bool
  | .completed (.Error _) => true
  | _ => false

/-- The key text a 2xx response displays: `data.key || '(see Lambda
logs)'` applied to the parse of `response.json()`. -/
def displayedKey (json : Option (Option String)) : String :=
  match json with
  | some (some k) => if k == "" then "(see Lambda logs)" else k
  | _ => "(see Lambda logs)"

/-- The message the client renders for one `fetch` outcome: a 2xx response
shows `Upload successful.` with `data.key || '(see Lambda logs)'`; a
non-2xx response throws `API returned ${status}: ${text}`; every throw is
caught and shown as `Error uploading file:\n${err.message || 'Unknown
error'}`. -/
def renderOutcome (outcome : FetchOutcome) : FormState :=
  match outcome with
  | .netErr m =>
      .Error ("Error uploading file:\n" ++ (if m == "" then "Unknown error" else m))
  | .resp status body json =>
      if 200 ≤ status && status < 300 then
        .Success ("Upload successful.\nS3 key: " ++ displayedKey json)
      else
        .Error ("Error uploading file:\nAPI returned " ++ toString status ++ ": " ++ body)

/-- The client form's submit handler (`app.js`): trim the subject id,
validate locally, otherwise POST and render the outcome. -/
def submitHandler (subjectIdRaw : String) (file : Option FileData)
    (outcome : FetchOutcome) : SubmitResult :=
  let subjectId := trimChars subjectIdRaw
  if subjectId == "" then
    .noRequest "Please enter a Player / Patient ID."
  else
    match file with
    | none => .noRequest "Please choose a CSV file to upload."
    | some _ => .completed (renderOutcome outcome)

/-! ## Helper lemmas about `updateFirst`, `find?` and the store invariants -/

theorem length_updateFirst (p : Account → Bool) (f : Account → Account) :
    ∀ us : List Account, (updateFirst p f us).length = us.length := by
  intro us
  induction us with
  | nil => rfl
  | cons u us ih =>
    cases hp : p u <;> simp [updateFirst, hp, ih]

theorem updateFirst_of_id (p : Account → Bool) (f : Account → Account)
    (hf : ∀ u, f u = u) : ∀ us : List Account, updateFirst p f us = us := by
  intro us
  induction us with
  | nil => rfl
  | cons u us ih =>
    cases hp : p u <;> simp [updateFirst, hp, ih, hf]

theorem mem_updateFirst {p : Account → Bool} {f : Account → Account}
    {x : Account} : ∀ {us : List Account}, x ∈ updateFirst p f us →
    (∃ u ∈ us, x = f u) ∨ x ∈ us := by
  intro us
  induction us with
  | nil => intro h; exact absurd h (by simp [updateFirst])
  | cons u us ih =>
    intro hx
    cases hp : p u
    · rw [updateFirst, hp] at hx
      simp only [Bool.false_eq_true, if_false, List.mem_cons] at hx
      rcases hx with h1 | h2
      · exact Or.inr (h1 ▸ List.mem_cons_self u us)
      · rcases ih h2 with ⟨v, hv, hxv⟩ | hmem
        · exact Or.inl ⟨v, List.mem_cons_of_mem u hv, hxv⟩
        · exact Or.inr (List.mem_cons_of_mem u hmem)
    · rw [updateFirst, hp] at hx
      simp only [if_true, List.mem_cons] at hx
      rcases hx with h1 | h2
      · exact Or.inl ⟨u, List.mem_cons_self u us, h1⟩
      · exact Or.inr (List.mem_cons_of_mem u h2)

theorem map_updateFirst_eq {β : Type} (g : Account → β) {p : Account → Bool}
    {f : Account → Account} (hf : ∀ u, g (f u) = g u) :
    ∀ us : List Account, (updateFirst p f us).map g = us.map g := by
  intro us
  induction us with
  | nil => rfl
  | cons u us ih =>
    cases hp : p u <;> simp [updateFirst, hp, ih, hf]

theorem getElem?_updateFirst_ne {p : Account → Bool} {f : Account → Account} :
    ∀ {us : List Account} {i : Nat}, firstIdx p us ≠ some i →
    (updateFirst p f us)[i]? = us[i]? := by
  intro us
  induction us with
  | nil => intro i _; rfl
  | cons u us ih =>
    intro i hne
    cases hp : p u
    · cases i with
      | zero => simp [updateFirst, hp]
      | succ j =>
        have hj : firstIdx p us ≠ some j := by
          intro hj
          exact hne (by simp [firstIdx, hp, hj])
        simp [updateFirst, hp, ih hj]
    · have h0 : i ≠ 0 := by
        intro h0
        exact hne (by simp [firstIdx, hp, h0])
      obtain ⟨j, rfl⟩ := Nat.exists_eq_succ_of_ne_zero h0
      simp [updateFirst, hp]

theorem nodup_map_updateFirst {β : Type} {g : Account → β} {s : β}
    {p : Account → Bool} {f : Account → Account}
    (hf : ∀ u, g (f u) = s ∨ g (f u) = g u) :
    ∀ {us : List Account}, (us.map g).Nodup → (∀ u ∈ us, g u ≠ s) →
    ((updateFirst p f us).map g).Nodup := by
  intro us
  induction us with
  | nil => intro _ _; simp [updateFirst]
  | cons u us ih =>
    intro hnd hs
    simp only [List.map_cons, List.nodup_cons] at hnd
    cases hp : p u
    · rw [updateFirst, hp]
      simp only [Bool.false_eq_true, if_false, List.map_cons, List.nodup_cons]
      refine ⟨?_, ih hnd.2 (fun v hv => hs v (List.mem_cons_of_mem u hv))⟩
      intro hmem
      rcases List.mem_map.mp hmem with ⟨v, hv, hvs⟩
      rcases mem_updateFirst hv with ⟨w, hw, rfl⟩ | hvmem
      · rcases hf w with h1 | h1
        · exact hs u (List.mem_cons_self u us) (by rw [← hvs, h1])
        · exact hnd.1 (by rw [← hvs, h1]; exact List.mem_map.mpr ⟨w, hw, rfl⟩)
      · exact hnd.1 (hvs ▸ List.mem_map.mpr ⟨v, hvmem, rfl⟩)
    · rw [updateFirst, hp]
      simp only [if_true, List.map_cons, List.nodup_cons]
      refine ⟨?_, hnd.2⟩
      rcases hf u with h1 | h1
      · rw [h1]
        intro hmem
        rcases List.mem_map.mp hmem with ⟨v, hv, hvs⟩
        exact hs v (List.mem_cons_of_mem u hv) hvs
      · rw [h1]; exact hnd.1

theorem updateFirst_append_cons {p : Account → Bool} {f : Account → Account}
    {a : Account} (l2 : List Account) (ha : p a = true) :
    ∀ l1 : List Account, (∀ x ∈ l1, p x = false) →
    updateFirst p f (l1 ++ a :: l2) = l1 ++ f a :: l2 := by
  intro l1
  induction l1 with
  | nil => intro _; simp [updateFirst, ha]
  | cons x l1 ih =>
    intro hx
    have hxf : p x = false := hx x (List.mem_cons_self x l1)
    have := ih (fun y hy => hx y (List.mem_cons_of_mem x hy))
    simp only [List.cons_append, updateFirst, hxf, Bool.false_eq_true, if_false,
      List.append_eq]
    rw [this]

theorem find?_split {p : Account → Bool} {a : Account} :
    ∀ {us : List Account}, us.find? p = some a →
    ∃ l1 l2, us = l1 ++ a :: l2 ∧ (∀ x ∈ l1, p x = false) ∧ p a = true := by
  intro us
  induction us with
  | nil => intro h; exact absurd h (by simp)
  | cons u us ih =>
    intro h
    cases hp : p u
    · rw [List.find?_cons_of_neg _ (by simp [hp])] at h
      rcases ih h with ⟨l1, l2, rfl, hl1, hpa⟩
      refine ⟨u :: l1, l2, rfl, ?_, hpa⟩
      intro x hx
      rcases List.mem_cons.mp hx with rfl | hx2
      · exact hp
      · exact hl1 x hx2
    · rw [List.find?_cons_of_pos _ hp] at h
      obtain rfl : u = a := by injection h
      exact ⟨[], us, rfl, by simp, hp⟩

/-! ## Field behaviour of `applyUpdate` -/

theorem applyUpdate_sessionToken (b : UpdateBody) (u : Account) :
    (applyUpdate b u).sessionToken = u.sessionToken := by
  rcases b with ⟨bu, br⟩
  cases bu <;> cases br <;> simp only [applyUpdate] <;> split_ifs <;> rfl

theorem applyUpdate_password (b : UpdateBody) (u : Account) :
    (applyUpdate b u).password = u.password := by
  rcases b with ⟨bu, br⟩
  cases bu <;> cases br <;> simp only [applyUpdate] <;> split_ifs <;> rfl

theorem applyUpdate_username_of_falsy {b : UpdateBody} (u : Account)
    (h : b.username = none ∨ b.username = some "") :
    (applyUpdate b u).username = u.username := by
  rcases b with ⟨bu, br⟩
  rcases h with h | h <;> subst h <;> cases br <;>
    simp only [applyUpdate] <;> split_ifs <;> simp_all

theorem applyUpdate_username_of_truthy {b : UpdateBody} (u : Account)
    {s : String} (h : b.username = some s) (hs : s ≠ "") :
    (applyUpdate b u).username = s := by
  rcases b with ⟨bu, br⟩
  subst h
  cases br <;> simp only [applyUpdate] <;> split_ifs <;> simp_all

theorem applyUpdate_falsy_id {b : UpdateBody}
    (hu : b.username = none ∨ b.username = some "")
    (hr : b.role = none ∨ b.role = some "") (u : Account) :
    applyUpdate b u = u := by
  rcases b with ⟨bu, br⟩
  rcases hu with hu | hu <;> rcases hr with hr | hr <;> subst hu <;> subst hr <;>
    simp [applyUpdate]

theorem applyUpdate_role_only {s : String} (hs : s ≠ "") (u : Account) :
    applyUpdate ⟨none, some s⟩ u = ⟨u.username, u.password, s, u.sessionToken⟩ := by
  simp [applyUpdate, hs]

/-! ## Token lookup -/

theorem findByToken_absent (users : List Account) : findByToken none users = none := by
  rw [findByToken, List.find?_eq_none]
  intro x _ h
  exact Bool.noConfusion h

theorem findByToken_at_index :
    ∀ {users : List Account} {i : Nat} {t : String}, TokensNodup users →
    (users.map Account.sessionToken)[i]? = some t →
    findByToken (some t) users = users[i]? := by
  intro users
  induction users with
  | nil => intro i t _ ht; simp at ht
  | cons u us ih =>
    intro i t hnd ht
    simp only [TokensNodup, List.map_cons, List.nodup_cons] at hnd
    cases i with
    | zero =>
      simp only [List.map_cons, List.getElem?_cons_zero] at ht
      obtain rfl : u.sessionToken = t := by injection ht
      simp only [List.getElem?_cons_zero]
      rw [findByToken, List.find?_cons_of_pos]
      simp
    | succ j =>
      simp only [List.map_cons, List.getElem?_cons_succ] at ht
      have hmem : t ∈ us.map Account.sessionToken := by
        rcases List.getElem?_eq_some.mp ht with ⟨hlt, heq⟩
        exact heq ▸ List.getElem_mem hlt
      have hne : u.sessionToken ≠ t := fun h => hnd.1 (h ▸ hmem)
      rw [List.getElem?_cons_succ, findByToken, List.find?_cons_of_neg]
      · exact ih hnd.2 ht
      · simp [hne]

/-! ## Per-operation preservation of the store invariants -/

theorem tokensNodup_step {users : List Account} {op : Op}
    (hnd : TokensNodup users)
    (hfresh : (match op with
       | .register _ _ _ t => users.all (fun a => a.sessionToken != t)
       | .login _ _ t => users.all (fun a => a.sessionToken != t)
       | _ => true) = true) :
    TokensNodup (step users op) := by
  cases op with
  | register u p r t =>
    simp only [step, register]
    split
    · exact hnd
    · split
      · exact hnd
      · simp only [TokensNodup, List.map_append, List.map_cons, List.map_nil]
        rw [List.nodup_append]
        refine ⟨hnd, List.nodup_singleton _, ?_⟩
        intro x hx hx1
        simp only [List.mem_singleton] at hx1
        subst hx1
        rcases List.mem_map.mp hx with ⟨a, ha, rfl⟩
        have hfa := List.all_eq_true.mp hfresh a ha
        simp [bne_iff_ne] at hfa
  | login u p t =>
    simp only [step, login]
    cases hf : users.find? (fun a => a.username == u && a.password == p) with
    | none => exact hnd
    | some a =>
      refine nodup_map_updateFirst (s := t) (fun v => Or.inl rfl) hnd ?_
      intro a ha
      have hfa := List.all_eq_true.mp hfresh a ha
      simpa [bne_iff_ne] using hfa
  | getProfile h => exact hnd
  | updateProfile h b =>
    simp only [step, updateProfile]
    cases hf : findByToken h users with
    | none => exact hnd
    | some a =>
      show TokensNodup (updateFirst _ _ users)
      rw [TokensNodup, map_updateFirst_eq _ (fun v => applyUpdate_sessionToken b v)]
      exact hnd

theorem tokenAt_step {users : List Account} {op : Op} {i : Nat} {t : String}
    (ht : (users.map Account.sessionToken)[i]? = some t)
    (havoid : (match op with
       | .login u p _ =>
           firstIdx (fun a => a.username == u && a.password == p) users != some i
       | _ => true) = true) :
    ((step users op).map Account.sessionToken)[i]? = some t := by
  cases op with
  | register u p r tok =>
    simp only [step, register]
    split
    · exact ht
    · split
      · exact ht
      · have hlt : i < (users.map Account.sessionToken).length :=
          (List.getElem?_eq_some.mp ht).1
        simp only [List.map_append, List.getElem?_append, List.length_map] at *
        rw [if_pos (by simpa using hlt)]
        exact ht
  | login u p tok =>
    simp only [step, login]
    cases hf : users.find? (fun a => a.username == u && a.password == p) with
    | none => exact ht
    | some a =>
      rw [List.getElem?_map] at ht ⊢
      rw [getElem?_updateFirst_ne (by simpa [bne_iff_ne] using havoid)]
      exact ht
  | getProfile h => exact ht
  | updateProfile h b =>
    simp only [step, updateProfile]
    cases hf : findByToken h users with
    | none => exact ht
    | some a =>
      show ((updateFirst _ _ users).map Account.sessionToken)[i]? = some t
      rw [map_updateFirst_eq _ (fun v => applyUpdate_sessionToken b v)]
      exact ht

theorem uniqueUsernames_step {users : List Account} {op : Op}
    (hnd : UniqueUsernames users)
    (hsafe : (match op with
       | .updateProfile _ b =>
           (match b.username with
            | some s => s == "" || users.all (fun a => a.username != s)
            | none => true)
       | _ => true) = true) :
    UniqueUsernames (step users op) := by
  cases op with
  | register u p r t =>
    simp only [step, register]
    split
    · exact hnd
    · split
      · exact hnd
      · rename_i hvalid hdup
        simp only [UniqueUsernames, List.map_append, List.map_cons, List.map_nil]
        rw [List.nodup_append]
        refine ⟨hnd, List.nodup_singleton _, ?_⟩
        intro x hx hx1
        simp only [List.mem_singleton] at hx1
        subst hx1
        rcases List.mem_map.mp hx with ⟨a, ha, rfl⟩
        exact hdup (List.any_eq_true.mpr ⟨a, ha, by simp⟩)
  | login u p t =>
    simp only [step, login]
    cases hf : users.find? (fun a => a.username == u && a.password == p) with
    | none => exact hnd
    | some a =>
      show UniqueUsernames (updateFirst _ _ users)
      rw [UniqueUsernames, map_updateFirst_eq
        (f := fun v => { v with sessionToken := t }) Account.username (fun v => rfl)]
      exact hnd
  | getProfile h => exact hnd
  | updateProfile h b =>
    simp only [step, updateProfile]
    cases hf : findByToken h users with
    | none => exact hnd
    | some a =>
      have hsafe2 : (match b.username with
          | some s => s == "" || users.all (fun a => a.username != s)
          | none => true) = true := hsafe
      show UniqueUsernames (updateFirst _ _ users)
      cases hbu : b.username with
      | none =>
        rw [UniqueUsernames,
          map_updateFirst_eq _ (fun v => applyUpdate_username_of_falsy v (Or.inl hbu))]
        exact hnd
      | some s =>
        rw [hbu] at hsafe2
        rcases Bool.or_eq_true_iff.mp hsafe2 with hs | hall
        · have hs0 : s = "" := by simpa using hs
          subst hs0
          rw [UniqueUsernames,
            map_updateFirst_eq _ (fun v => applyUpdate_username_of_falsy v (Or.inr hbu))]
          exact hnd
        · by_cases hs0 : s = ""
          · subst hs0
            rw [UniqueUsernames,
              map_updateFirst_eq _ (fun v => applyUpdate_username_of_falsy v (Or.inr hbu))]
            exact hnd
          · refine nodup_map_updateFirst (s := s)
              (fun v => Or.inl (applyUpdate_username_of_truthy v hbu hs0)) hnd ?_
            intro a ha
            have hfa := List.all_eq_true.mp hall a ha
            simpa [bne_iff_ne] using hfa

theorem nonEmptyTokens_step {users : List Account} {op : Op}
    (h : ∀ a ∈ users, a.sessionToken ≠ "")
    (hop : (match op with
       | .register _ _ _ t => t != ""
       | .login _ _ t => t != ""
       | _ => true) = true) :
    ∀ a ∈ step users op, a.sessionToken ≠ "" := by
  cases op with
  | register u p r t =>
    simp only [step, register]
    split
    · exact h
    · split
      · exact h
      · intro a ha
        rcases List.mem_append.mp ha with ha | ha
        · exact h a ha
        · simp only [List.mem_singleton] at ha
          subst ha
          simpa [bne_iff_ne] using hop
  | login u p t =>
    simp only [step, login]
    cases hf : users.find? (fun a => a.username == u && a.password == p) with
    | none => exact h
    | some a =>
      intro x hx
      rcases mem_updateFirst hx with ⟨v, hv, rfl⟩ | hx2
      · simpa [bne_iff_ne] using hop
      · exact h x hx2
  | getProfile hh => exact h
  | updateProfile hh b =>
    simp only [step, updateProfile]
    cases hf : findByToken hh users with
    | none => exact h
    | some a =>
      intro x hx
      rcases mem_updateFirst hx with ⟨v, hv, rfl⟩ | hx2
      · rw [applyUpdate_sessionToken]
        exact h v hv
      · exact h x hx2

/-! ## Trace-level invariants -/

theorem token_persists (ops : List Op) :
    ∀ (users : List Account) (i : Nat) (t : String),
    TokensNodup users → (users.map Account.sessionToken)[i]? = some t →
    freshTrace users ops = true → avoidsLogin i users ops = true →
    TokensNodup (runFrom users ops) ∧
    ((runFrom users ops).map Account.sessionToken)[i]? = some t := by
  induction ops with
  | nil => intro users i t h1 h2 _ _; exact ⟨h1, h2⟩
  | cons op ops ih =>
    intro users i t h1 h2 hfresh havoid
    simp only [freshTrace, Bool.and_eq_true] at hfresh
    simp only [avoidsLogin, Bool.and_eq_true] at havoid
    have h1' := tokensNodup_step h1 hfresh.1
    have h2' := tokenAt_step h2 havoid.1
    simpa [runFrom, List.foldl_cons] using
      ih (step users op) i t h1' h2' hfresh.2 havoid.2

theorem tokensNodup_runFrom (ops : List Op) :
    ∀ users : List Account, TokensNodup users → freshTrace users ops = true →
    TokensNodup (runFrom users ops) := by
  induction ops with
  | nil => intro users h _; exact h
  | cons op ops ih =>
    intro users h hfresh
    simp only [freshTrace, Bool.and_eq_true] at hfresh
    simpa [runFrom, List.foldl_cons] using
      ih (step users op) (tokensNodup_step h hfresh.1) hfresh.2

theorem uniqueUsernames_runFrom (ops : List Op) :
    ∀ users : List Account, UniqueUsernames users → renamesFresh users ops = true →
    UniqueUsernames (runFrom users ops) := by
  induction ops with
  | nil => intro users h _; exact h
  | cons op ops ih =>
    intro users h hsafe
    simp only [renamesFresh, Bool.and_eq_true] at hsafe
    simpa [runFrom, List.foldl_cons] using
      ih (step users op) (uniqueUsernames_step h hsafe.1) hsafe.2

theorem nonEmptyTokens_runFrom (ops : List Op) :
    ∀ users : List Account, (∀ a ∈ users, a.sessionToken ≠ "") →
    tokensNonEmpty ops = true →
    ∀ a ∈ runFrom users ops, a.sessionToken ≠ "" := by
  induction ops with
  | nil => intro users h _; exact h
  | cons op ops ih =>
    intro users h hne
    simp only [tokensNonEmpty, Bool.and_eq_true] at hne
    simpa [runFrom, List.foldl_cons] using
      ih (step users op) (nonEmptyTokens_step h hne.1) hne.2

/-! ## Response-level helper lemmas -/

theorem register_first_ok {u p1 r1 tok1 : String} {users : List Account}
    (hu : u ≠ "") (hp : p1 ≠ "") (hr : r1 ≠ "")
    (habs : users.all (fun a => a.username != u) = true) :
    register u p1 r1 tok1 users =
      (users ++ [⟨u, p1, r1, tok1⟩], .ok ⟨tok1, u, r1⟩) := by
  have hany : users.any (fun a => a.username == u) = false := by
    rw [← Bool.not_eq_true, List.any_eq_true]
    rintro ⟨a, ha, hau⟩
    have hall := List.all_eq_true.mp habs a ha
    rw [beq_iff_eq] at hau
    rw [bne_iff_ne] at hall
    exact hall hau
  simp [register, hu, hp, hr, hany]

/-! ## Claim theorems -/

/-- Claim C3 (corrected): with all three fields non-empty, registering a
username absent from the store succeeds, and an immediate second register
of the same username (any non-empty password/role) fails with the
duplicate-username ConflictError and leaves the store unchanged.  (The
unrestricted claim is refuted by `register_empty_password_fails`: an empty
password or role makes either call fail with the missing-fields
ValidationError instead.) -/
theorem register_duplicate_conflict
    (u p1 r1 p2 r2 tok1 tok2 : String) (users : List Account)
    (hu : u ≠ "") (hp1 : p1 ≠ "") (hr1 : r1 ≠ "") (hp2 : p2 ≠ "") (hr2 : r2 ≠ "")
    (habs : users.all (fun a => a.username != u) = true) :
    (register u p1 r1 tok1 users).2 = .ok ⟨tok1, u, r1⟩ ∧
    register u p2 r2 tok2 (register u p1 r1 tok1 users).1 =
      ((register u p1 r1 tok1 users).1, .err 400 "Username already exists") := by
  rw [register_first_ok hu hp1 hr1 habs]
  refine ⟨rfl, ?_⟩
  have hany : ((users ++ [(⟨u, p1, r1, tok1⟩ : Account)]).any (fun a => a.username == u)) = true :=
    List.any_eq_true.mpr ⟨(⟨u, p1, r1, tok1⟩ : Account),
      List.mem_append_right _ (List.mem_singleton.mpr rfl), by simp⟩
  simp [register, hu, hp2, hr2, hany]

/-- Claim C3's counterexample: `Register("a", "", "r")` on the empty store
(which does not contain `"a"`) does not succeed — it fails with the
missing-fields ValidationError, refuting "for any passwords/roles …
succeeds"; and after a successful `Register("a", "p", "r")`, a second
register of `"a"` with an empty password fails with the ValidationError
message, not the duplicate-username ConflictError. -/
theorem register_empty_password_fails :
    register "a" "" "r" "t" [] = ([], .err 400 "Missing username, password or role") ∧
    (register "a" "" "r2" "t2" (register "a" "p" "r" "t1" []).1).2 =
      .err 400 "Missing username, password or role" := by
  constructor <;> rfl

/-- Claim C5: for the account matched by a valid token, update-profile with
body `{role: "coach"}` sets that account's role to `"coach"` and leaves its
username, password and sessionToken, and every other account, unchanged
(the store keeps its shape `l1 ++ [account] ++ l2` with only the one account
rewritten); update-profile with an empty body changes nothing and still
returns a 200 success with the prior values. -/
theorem updateProfile_role_coach {users : List Account} {t : String} {a : Account}
    (hfind : findByToken (some t) users = some a) :
    (∃ l1 l2, users = l1 ++ a :: l2 ∧
      updateProfile (some t) ⟨none, some "coach"⟩ users =
        (l1 ++ ⟨a.username, a.password, "coach", a.sessionToken⟩ :: l2,
         .ok ⟨true, a.username, "coach"⟩)) ∧
    updateProfile (some t) ⟨none, none⟩ users = (users, .ok ⟨true, a.username, a.role⟩) := by
  constructor
  · rcases find?_split (p := fun v => some v.sessionToken == some t) hfind with
      ⟨l1, l2, heq, hl1, hpa⟩
    refine ⟨l1, l2, heq, ?_⟩
    simp only [updateProfile, hfind]
    rw [heq, updateFirst_append_cons l2 hpa l1 hl1,
      applyUpdate_role_only (by decide) a]
  · simp only [updateProfile, hfind]
    rw [updateFirst_of_id _ _ (applyUpdate_falsy_id (Or.inl rfl) (Or.inl rfl)),
      applyUpdate_falsy_id (Or.inl rfl) (Or.inl rfl) a]

/-- Claim C9: for the account matched by a valid token, supplying
`username` or `role` as the empty string (a falsy value) leaves that field
unchanged — the store is untouched — and the call still returns a 200
success carrying the prior field values. -/
theorem updateProfile_empty_string_fields {users : List Account} {t : String}
    {a : Account} (hfind : findByToken (some t) users = some a) :
    updateProfile (some t) ⟨some "", some ""⟩ users =
      (users, .ok ⟨true, a.username, a.role⟩) ∧
    updateProfile (some t) ⟨some "", none⟩ users =
      (users, .ok ⟨true, a.username, a.role⟩) ∧
    updateProfile (some t) ⟨none, some ""⟩ users =
      (users, .ok ⟨true, a.username, a.role⟩) := by
  refine ⟨?_, ?_, ?_⟩ <;> simp only [updateProfile, hfind]
  · rw [updateFirst_of_id _ _ (applyUpdate_falsy_id (Or.inr rfl) (Or.inr rfl)),
      applyUpdate_falsy_id (Or.inr rfl) (Or.inr rfl) a]
  · rw [updateFirst_of_id _ _ (applyUpdate_falsy_id (Or.inr rfl) (Or.inl rfl)),
      applyUpdate_falsy_id (Or.inr rfl) (Or.inl rfl) a]
  · rw [updateFirst_of_id _ _ (applyUpdate_falsy_id (Or.inl rfl) (Or.inr rfl)),
      applyUpdate_falsy_id (Or.inl rfl) (Or.inr rfl) a]

/-- Claim C6: a presigned-URL request with `fileName` missing (absent, or
present but empty — the JS falsy test, and the spec's ValidationError
covers "missing/empty required field") fails with HTTP 400; otherwise the
handler asks the signer for a descriptor with key exactly `fileName`,
expiry exactly 60 seconds and content type exactly `"text/csv"`, returns
`{uploadURL}` when the signer succeeds and HTTP 500 with the signer's
error message when it fails. -/
theorem uploadHandler_spec (bucket : String) (sign : SignParams → Except String String)
    (s : String) :
    uploadHandler bucket none sign = .err 400 "you are missing filename" ∧
    uploadHandler bucket (some "") sign = .err 400 "you are missing filename" ∧
    (s ≠ "" → ∀ url, sign ⟨bucket, s, 60, "text/csv"⟩ = .ok url →
        uploadHandler bucket (some s) sign = .ok ⟨url⟩) ∧
    (s ≠ "" → ∀ e, sign ⟨bucket, s, 60, "text/csv"⟩ = .error e →
        uploadHandler bucket (some s) sign = .err 500 e) := by
  refine ⟨rfl, rfl, ?_, ?_⟩ <;> intro hs x hx <;> simp [uploadHandler, hs, hx]

/-- Claim C7 (spec-modelled, see `uploadInline`): an inline-mode upload with
empty `fileContent` fails validation, and whenever the call returns a key
to the caller, that key equals the submitted filename. -/
theorem uploadInline_spec (r : InlineRequest)
    (write : String → String → Except (Nat × String) Unit) :
    (r.fileContent = "" →
      uploadInline r write = .err 400 "Missing subjectId, filename or fileContent") ∧
    ∀ k, uploadInline r write = .ok ⟨k⟩ → k = r.filename := by
  constructor
  · intro h
    simp [uploadInline, h]
  · intro k hk
    simp only [uploadInline] at hk
    split at hk
    · exact absurd hk (by simp)
    · split at hk
      · exact absurd hk (by simp)
      · rw [Resp.ok.injEq, InlineResponse.mk.injEq] at hk
        exact hk.symm

/-- Claim C10: starting from the empty store, provided every generated
token is a non-empty string (true of `generateToken`'s output for every
`Math.random()` value except exactly 0), every account always carries a
non-empty sessionToken — register assigns one at creation, login only
overwrites it, and no operation clears it — and a profile read or update
with no Authorization header always fails with HTTP 401, because an absent
header equals no stored string token. -/
theorem sessionToken_always_present (ops : List Op) (users : List Account)
    (body : UpdateBody) (hne : tokensNonEmpty ops = true) :
    (∀ a ∈ run ops, a.sessionToken ≠ "") ∧
    profile none users = .err 401 "You are not logged in" ∧
    updateProfile none body users = (users, .err 401 "You are not logged in") := by
  refine ⟨nonEmptyTokens_runFrom ops [] (by simp) hne, ?_, ?_⟩ <;>
    simp [profile, updateProfile, findByToken_absent]

/-- Claim C1's counterexample: starting from the empty store, register
"alice" and "bob", then let "bob" rename himself to "alice" through
update-profile — the handler overwrites the username without any
duplicate check, so the store ends with two accounts named "alice". -/
theorem rename_breaks_uniqueness :
    ¬ UniqueUsernames (run
      [ .register "alice" "pa" "player" "t1",
        .register "bob" "pb" "coach" "t2",
        .updateProfile (some "t2") ⟨some "alice", none⟩ ]) := by decide

/-- Claim C1 (amended): the uniqueness invariant holds for every operation
sequence from the empty store in which each update-profile that supplies a
truthy username renames to a username not present in the store at that
moment.  (Register alone preserves it unconditionally; the unrestricted
claim is refuted by `rename_breaks_uniqueness`, because update-profile
performs no duplicate check.) -/
theorem uniqueUsernames_invariant (ops : List Op)
    (h : renamesFresh [] ops = true) : UniqueUsernames (run ops) :=
  uniqueUsernames_runFrom ops [] (by simp [UniqueUsernames]) h

/-- Witness for `uniqueUsernames_invariant` at a concrete rename-safe trace. -/
theorem uniqueUsernames_invariant_witness :
    renamesFresh []
        [ Op.register "alice" "pa" "player" "t1",
          Op.register "bob" "pb" "coach" "t2",
          Op.updateProfile (some "t2") ⟨some "carol", none⟩ ] = true ∧
    UniqueUsernames (run
        [ Op.register "alice" "pa" "player" "t1",
          Op.register "bob" "pb" "coach" "t2",
          Op.updateProfile (some "t2") ⟨some "carol", none⟩ ]) :=
  ⟨by decide, uniqueUsernames_invariant _ (by decide)⟩

/-- Claim C2's counterexample: `generateToken` is a PRNG with no freshness
guarantee, so two Registers can draw the same token `"t"`.  The Register
for "bob" returns token `"t"`, no later Login for "bob" occurs, yet a
profile read presenting `"t"` resolves to the first matching account
("alice"), not to "bob". -/
theorem token_collision_misresolves :
    (register "bob" "pb" "rb" "t" (run [.register "alice" "pa" "ra" "t"])).2 =
      .ok ⟨"t", "bob", "rb"⟩ ∧
    profile (some "t")
      (run [.register "alice" "pa" "ra" "t", .register "bob" "pb" "rb" "t"]) =
      .ok ⟨"alice", "ra"⟩ := by
  constructor <;> rfl

/-- Claim C2 (amended): assume every generated token along the trace is
fresh (differs from all stored tokens — not guaranteed by the weak PRNG,
hence the amendment; see `token_collision_misresolves`).  If the account
at position `i` holds token `t` — the state a successful Register or Login
for that account leaves behind — then after any further operations
containing no Login resolving to that account, the account still holds
`t`, and a GetProfile or UpdateProfile presenting `t` succeeds and
resolves to that account (returning its current username/role, and, for
update, overwriting only its supplied fields).  A token stored on no
account always fails with the 401 AuthError. -/
theorem token_authenticates (users : List Account) (ops : List Op) (i : Nat)
    (t : String) (b : UpdateBody)
    (hnd : TokensNodup users)
    (ht : (users.map Account.sessionToken)[i]? = some t)
    (hfresh : freshTrace users ops = true)
    (havoid : avoidsLogin i users ops = true) :
    (∃ a, (runFrom users ops)[i]? = some a ∧ a.sessionToken = t ∧
      profile (some t) (runFrom users ops) = .ok ⟨a.username, a.role⟩ ∧
      (updateProfile (some t) b (runFrom users ops)).2 =
        .ok ⟨true, (applyUpdate b a).username, (applyUpdate b a).role⟩) ∧
    (∀ (others : List Account) (t2 : String) (b2 : UpdateBody),
      others.all (fun a => a.sessionToken != t2) = true →
      profile (some t2) others = .err 401 "You are not logged in" ∧
      (updateProfile (some t2) b2 others).2 = .err 401 "You are not logged in") := by
  constructor
  · obtain ⟨hnd', ht'⟩ := token_persists ops users i t hnd ht hfresh havoid
    rw [List.getElem?_map] at ht'
    cases hl : (runFrom users ops)[i]? with
    | none => rw [hl] at ht'; cases ht'
    | some a =>
      rw [hl] at ht'
      have hat : a.sessionToken = t := by simpa using ht'
      have hfind : findByToken (some t) (runFrom users ops) = some a := by
        rw [findByToken_at_index hnd' (by rw [List.getElem?_map, hl]; simp [hat]), hl]
      exact ⟨a, rfl, hat, by simp [profile, hfind], by simp [updateProfile, hfind]⟩
  · intro others t2 b2 hall
    have hfind : findByToken (some t2) others = none := by
      rw [findByToken, List.find?_eq_none]
      intro x hx hbeq
      have hxt := List.all_eq_true.mp hall x hx
      rw [bne_iff_ne] at hxt
      exact hxt (by simpa using hbeq)
    exact ⟨by simp [profile, hfind], by simp [updateProfile, hfind]⟩

/-- Witness for `token_authenticates`: a one-account store, an empty
further trace, and an unknown token failing with 401. -/
theorem token_authenticates_witness :
    profile (some "zz") [⟨"alice", "pw", "analyst", "t1"⟩] =
      .err 401 "You are not logged in" :=
  ((token_authenticates [⟨"alice", "pw", "analyst", "t1"⟩] [] 0 "t1" ⟨none, none⟩
      (by decide) (by decide) (by decide) (by decide)).2
    [⟨"alice", "pw", "analyst", "t1"⟩] "zz" ⟨none, none⟩ (by decide)).1

/-- Claim C4's counterexample, in two parts.  Part 1: update-profile can
make two accounts share a username (no duplicate check), after which a
Login with the registered account's correct username "alice" but the wrong
password "pb" (the registered password is "pa") nevertheless succeeds, by
matching the renamed second account.  Part 2: `generateToken` can repeat a
value, so a Login for "alice" can return token `"t2"` even though `"t2"`
was issued to (and is still stored on) the different account "bob". -/
theorem login_counterexample :
    ((run [ .register "alice" "pa" "player" "t1",
            .register "bob" "pb" "coach" "t2",
            .updateProfile (some "t2") ⟨some "alice", none⟩ ]).any
        (fun a => a.username == "alice" && a.password == "pa") = true ∧
      ("pb" : String) ≠ "pa" ∧
      (login "alice" "pb" "t3"
        (run [ .register "alice" "pa" "player" "t1",
               .register "bob" "pb" "coach" "t2",
               .updateProfile (some "t2") ⟨some "alice", none⟩ ])).2 =
        .ok ⟨"t3", "alice", "coach"⟩) ∧
    ((login "alice" "pa" "t2"
        (run [ .register "alice" "pa" "ra" "t1", .register "bob" "pb" "rb" "t2" ])).2 =
        .ok ⟨"t2", "alice", "ra"⟩ ∧
      (run [ .register "alice" "pa" "ra" "t1", .register "bob" "pb" "rb" "t2" ]).any
        (fun a => a.username == "bob" && a.sessionToken == "t2") = true ∧
      ("bob" : String) ≠ "alice") := by
  exact ⟨⟨by decide, by decide, by decide⟩, by decide, by decide, by decide⟩

/-- Claim C4 (amended): in a store whose usernames are unique (see
`login_counterexample` part 1 — renames can break this) Login for a
registered account with the correct username but a wrong password fails
with the 401 AuthError and leaves the store unchanged, and Login with the
exact username and password succeeds, returning the freshly generated
token and the account's username and role.  Under the freshness
assumption on generated tokens (see part 2 — the weak PRNG does not
guarantee it) all stored tokens stay pairwise distinct, so the returned
token differs from every token stored on a different account. -/
theorem login_correctness (users : List Account) (a : Account) (p2 tok : String)
    (ops : List Op) (hnd : UniqueUsernames users) (ha : a ∈ users) :
    (p2 ≠ a.password →
      login a.username p2 tok users = (users, .err 401 "Invalid Login")) ∧
    (login a.username a.password tok users).2 = .ok ⟨tok, a.username, a.role⟩ ∧
    (freshTrace [] ops = true → TokensNodup (run ops)) := by
  refine ⟨?_, ?_, fun hf => tokensNodup_runFrom ops [] (by simp [TokensNodup]) hf⟩
  · intro hp
    have hf : users.find? (fun u => u.username == a.username && u.password == p2)
        = none := by
      rw [List.find?_eq_none]
      intro x hx hbx
      rw [Bool.and_eq_true, beq_iff_eq, beq_iff_eq] at hbx
      have hxa : x = a := List.inj_on_of_nodup_map hnd hx ha hbx.1
      subst hxa
      exact hp hbx.2.symm
    simp [login, hf]
  · cases hf : users.find?
        (fun u => u.username == a.username && u.password == a.password) with
    | none =>
      rw [List.find?_eq_none] at hf
      exact absurd
        (by simp : (a.username == a.username && a.password == a.password) = true)
        (hf a ha)
    | some u =>
      have hu : u ∈ users := List.mem_of_find?_eq_some hf
      have hpu := List.find?_some hf
      rw [Bool.and_eq_true, beq_iff_eq, beq_iff_eq] at hpu
      have hua : u = a := List.inj_on_of_nodup_map hnd hu ha hpu.1
      subst hua
      simp [login, hf]

/-- Witness for `login_correctness`: a correct-credentials login on a
one-account store succeeds with the new token. -/
theorem login_correctness_witness :
    (login "alice" "pw" "t9" [⟨"alice", "pw", "analyst", "t1"⟩]).2 =
      .ok ⟨"t9", "alice", "analyst"⟩ :=
  (login_correctness [⟨"alice", "pw", "analyst", "t1"⟩]
    ⟨"alice", "pw", "analyst", "t1"⟩ "x" "t9" [] (by decide) (by decide)).2.1

/-- Claim C8's counterexample: a submit with a non-empty subject id and a
file selected, answered by a 2xx response whose body fails JSON parsing,
ends in the Success state displaying the placeholder text — not in the
Error state the claim requires for a parsing failure, and without any
returned storage key to display. -/
theorem submit_parse_failure_shows_success :
    submitHandler "p1" (some ⟨"stats.csv", "a,b"⟩) (.resp 200 "ok" none) =
      .completed (.Success "Upload successful.\nS3 key: (see Lambda logs)") ∧
    (submitHandler "p1" (some ⟨"stats.csv", "a,b"⟩)
        (.resp 200 "ok" none)).endedInError = false := by
  constructor <;> rfl

/-- Claim C8 (amended): the form never issues a request when the trimmed
subject id is empty or no file is selected (it stays Idle showing a local
validation message); on a request it passes through Uploading and renders
the outcome: Success on every 2xx response — displaying the returned
storage key when the body parses to an object with a truthy `key` and the
placeholder `(see Lambda logs)` otherwise (a JSON-parse failure of a 2xx
response is swallowed by `.catch(() => ({}))`, refuting the original
claim; see `submit_parse_failure_shows_success`) — and Error, displaying
the error message, on every non-2xx response or network failure. -/
theorem submitHandler_states (sid : String) (file : Option FileData)
    (outcome : FetchOutcome) :
    (trimChars sid = "" →
      submitHandler sid file outcome = .noRequest "Please enter a Player / Patient ID.") ∧
    (trimChars sid ≠ "" → file = none →
      submitHandler sid file outcome = .noRequest "Please choose a CSV file to upload.") ∧
    (trimChars sid ≠ "" → ∀ f, file = some f →
      submitHandler sid file outcome = .completed (renderOutcome outcome)) ∧
    (∀ m, renderOutcome (.netErr m) =
      .Error ("Error uploading file:\n" ++ (if m == "" then "Unknown error" else m))) ∧
    (∀ st body j, 200 ≤ st → st < 300 →
      renderOutcome (.resp st body j) =
        .Success ("Upload successful.\nS3 key: " ++ displayedKey j)) ∧
    (∀ st body j, ¬ (200 ≤ st ∧ st < 300) →
      renderOutcome (.resp st body j) =
        .Error ("Error uploading file:\nAPI returned " ++ toString st ++ ": " ++ body)) ∧
    (∀ k, k ≠ "" → displayedKey (some (some k)) = k) := by
  refine ⟨?_, ?_, ?_, ?_, ?_, ?_, ?_⟩
  · intro h
    simp [submitHandler, h]
  · intro h hf
    simp [submitHandler, h, hf]
  · intro h f hf
    simp [submitHandler, h, hf]
  · intro m
    rfl
  · intro st body j h1 h2
    simp [renderOutcome, h1, h2]
  · intro st body j h
    simp only [renderOutcome]
    rw [if_neg]
    simpa [Bool.and_eq_true, decide_eq_true_eq, not_and] using h
  · intro k h
    simp [displayedKey, h]

/-- Witness for `submitHandler_states`: a network failure renders the
Error state with the thrown message. -/
theorem submitHandler_states_witness :
    submitHandler "p1" (some ⟨"stats.csv", "a,b"⟩) (.netErr "boom") =
      .completed (renderOutcome (.netErr "boom")) :=
  (submitHandler_states "p1" (some ⟨"stats.csv", "a,b"⟩) (.netErr "boom")).2.2.1
    (by decide) ⟨"stats.csv", "a,b"⟩ rfl

/-- Witness for `register_duplicate_conflict`: registering "alice" twice
from the empty store. -/
theorem register_duplicate_conflict_witness :
    (register "alice" "pw" "analyst" "t1" []).2 = .ok ⟨"t1", "alice", "analyst"⟩ ∧
    register "alice" "pw2" "coach" "t2" (register "alice" "pw" "analyst" "t1" []).1 =
      ((register "alice" "pw" "analyst" "t1" []).1,
       .err 400 "Username already exists") :=
  register_duplicate_conflict "alice" "pw" "analyst" "pw2" "coach" "t1" "t2" []
    (by decide) (by decide) (by decide) (by decide) (by decide) (by decide)

/-- Witness for `updateProfile_role_coach`: the empty-body update on a
one-account store returns the prior values and changes nothing. -/
theorem updateProfile_role_coach_witness :
    updateProfile (some "tk") ⟨none, none⟩ [⟨"alice", "pw", "analyst", "tk"⟩] =
      ([⟨"alice", "pw", "analyst", "tk"⟩], .ok ⟨true, "alice", "analyst"⟩) :=
  (@updateProfile_role_coach [⟨"alice", "pw", "analyst", "tk"⟩] "tk"
    ⟨"alice", "pw", "analyst", "tk"⟩ (by decide)).2

/-- Witness for `updateProfile_empty_string_fields` on a one-account store. -/
theorem updateProfile_empty_string_fields_witness :
    updateProfile (some "tk") ⟨some "", some ""⟩ [⟨"bob", "pw", "coach", "tk"⟩] =
      ([⟨"bob", "pw", "coach", "tk"⟩], .ok ⟨true, "bob", "coach"⟩) :=
  (@updateProfile_empty_string_fields [⟨"bob", "pw", "coach", "tk"⟩] "tk"
    ⟨"bob", "pw", "coach", "tk"⟩ (by decide)).1

/-- Witness for `uploadHandler_spec`: a successful signing for
`fileName="a.csv"` returns the signed URL. -/
theorem uploadHandler_spec_witness :
    uploadHandler "bkt" (some "a.csv") (fun _ => .ok "u1") = .ok ⟨"u1"⟩ :=
  (uploadHandler_spec "bkt" (fun _ => .ok "u1") "a.csv").2.2.1 (by decide) "u1" rfl

/-- Witness for `uploadInline_spec`: an empty `fileContent` fails
validation. -/
theorem uploadInline_spec_witness :
    uploadInline ⟨"p1", "a.csv", ""⟩ (fun _ _ => .ok ()) =
      .err 400 "Missing subjectId, filename or fileContent" :=
  (uploadInline_spec ⟨"p1", "a.csv", ""⟩ (fun _ _ => .ok ())).1 rfl

/-- Witness for `sessionToken_always_present`: a header-less profile read
fails with 401 on a one-account store. -/
theorem sessionToken_always_present_witness :
    profile none [⟨"alice", "pw", "analyst", "t1"⟩] =
      .err 401 "You are not logged in" :=
  (sessionToken_always_present [Op.register "alice" "pw" "analyst" "t1"]
    [⟨"alice", "pw", "analyst", "t1"⟩] ⟨none, none⟩ (by decide)).2.1
